import Mathlib

/-!
Verification development for the task-orchestration and progress-streaming
subsystem of a media download service.  The definitions below are shallow
embeddings of the Python source (`src/audio_downloader.py`,
`src/api/routes.py`, `src/api/models.py`, `src/api/database.py`); the
theorems settle the specified properties against them.
-/

namespace YtDlp

/-! ## URL validation (`URLValidator` in `src/audio_downloader.py`)

The four regular expressions in `URLValidator.YOUTUBE_PATTERNS` are matched
with `re.match` (anchored at the start only).  Each pattern is an optional
scheme, an optional `www.` (or `m.`) label, a literal host/path part, and a
capture group of exactly 11 identifier characters.  Because no literal part
can begin another (e.g. `http` vs `www.` vs `youtube`), the regex engine's
backtracking never changes the outcome and the match is equivalent to the
deterministic prefix-dropping functions below. -/

/-- The character class `[a-zA-Z0-9_-]` used by all four URL patterns. -/
def isIdChar (c : Char) : Bool :=
  c.isAlpha || c.isDigit || c = '_' || c = '-'

/-- Drop a literal prefix from a character list, failing if it is absent. -/
def dropLit : List Char → List Char → Option (List Char)
  | [], cs => some cs
  | _ :: _, [] => none
  | l :: ls, c :: cs => if c = l then dropLit ls cs else none

/-- Drop an optional literal (regex `(?:lit)?`): consume it when present. -/
def dropOpt (lit cs : List Char) : List Char :=
  match dropLit lit cs with
  | some r => r
  | none => cs

/-- The optional scheme `(?:https?://)?`. -/
def dropScheme (cs : List Char) : List Char :=
  match dropLit "https://".toList cs with
  | some r => r
  | none =>
    match dropLit "http://".toList cs with
    | some r => r
    | none => cs

/-- Take exactly `n` identifier characters, returning them and the rest. -/
def takeIdChars : Nat → List Char → Option (List Char × List Char)
  | 0, cs => some ([], cs)
  | _ + 1, [] => none
  | n + 1, c :: cs =>
    if isIdChar c then
      (takeIdChars n cs).map (fun p => (c :: p.1, p.2))
    else
      none

/-- Match one URL pattern: optional scheme, optional label (`www.` / `m.`),
literal host/path, then the 11-character capture group (`re.match` ignores
any trailing characters). -/
def matchPattern (label host : String) (cs : List Char) : Option (List Char) :=
  match dropLit host.toList (dropOpt label.toList (dropScheme cs)) with
  | none => none
  | some r => (takeIdChars 11 r).map Prod.fst

/-- Models `re.match` of the four `YOUTUBE_PATTERNS`, in order, returning the
capture group of the first one that matches. -/
def matchPatterns (cs : List Char) : Option (List Char) :=
  match matchPattern "www." "youtube.com/watch?v=" cs with
  | some g => some g
  | none =>
    match matchPattern "www." "youtu.be/" cs with
    | some g => some g
    | none =>
      match matchPattern "www." "youtube.com/embed/" cs with
      | some g => some g
      | none => matchPattern "m." "youtube.com/watch?v=" cs

/-- Python `str.strip()`: remove leading and trailing whitespace. -/
def pyStrip (cs : List Char) : List Char :=
  ((cs.dropWhile Char.isWhitespace).reverse.dropWhile Char.isWhitespace).reverse

/-- Models `URLValidator.is_valid_youtube_url`: true when some pattern matches the
stripped URL (the empty string is rejected by the patterns themselves). -/
def is_valid_youtube_url (url : String) : Bool :=
  (matchPatterns (pyStrip url.toList)).isSome

/-- Models `URLValidator.extract_video_id`: capture group of the first matching
pattern, if any. -/
def extract_video_id (url : String) : Option String :=
  (matchPatterns (pyStrip url.toList)).map List.asString

/-- Models `URLValidator.normalize_url`: rebuild the canonical watch URL from the
extracted id, or return the input unchanged when extraction fails. -/
def normalize_url (url : String) : String :=
  match extract_video_id url with
  | some vid => "https://www.youtube.com/watch?v=" ++ vid
  | none => url

/-! ## Progress tracking (`ProgressTracker` in `src/audio_downloader.py`) -/

/-- Task/hook status values: `'pending'`, `'downloading'`, `'finished'`,
`'error'` (the source stores these as strings). -/
inductive Status where
  | pending
  | downloading
  | finished
  | error
deriving DecidableEq, Repr

/-- Models `Path(filename).name`: the final path component — the characters after
the last `'/'`. -/
def pathName (filename : String) : String :=
  ((filename.toList.reverse.takeWhile (fun c => c ≠ '/')).reverse).asString

/-- One-decimal rendering of a nonnegative rational, standing for Python's
`f"{x:.1f}"` float format (the float tie-breaking detail is immaterial to
every property proved here). -/
def fmt1 (q : ℚ) : String :=
  let t : ℤ := round (q * 10)
  toString (t / 10) ++ "." ++ toString (t % 10)

/-- Models `ProgressTracker._format_bytes` unit loop over B/KB/MB/GB, ending at TB. -/
def format_bytes_loop : ℚ → List String → String
  | q, [] => fmt1 q ++ " TB"
  | q, u :: us => if q < 1024 then fmt1 q ++ " " ++ u else format_bytes_loop (q / 1024) us

/-- Models `ProgressTracker._format_bytes`: falsy (zero) input gives `"0 B"`. -/
def format_bytes (q : ℚ) : String :=
  if q = 0 then "0 B" else format_bytes_loop q ["B", "KB", "MB", "GB"]

/-- A yt-dlp progress-hook dictionary `d`; `none` models an absent (or
`None`-valued) key. -/
structure HookDict where
  status : Status
  filename : Option String
  total_bytes : Option Nat
  total_bytes_estimate : Option Nat
  downloaded_bytes : Option Nat
  speed : Option ℚ

/-- The dictionary a progress handler passes to the tracker's callback;
`none` models a key the handler does not set. -/
structure ProgressInfo where
  status : Status
  filename : Option String
  percentage : Option ℚ
  downloaded : Option String
  total : Option String
  speed : Option String
  message : Option String
deriving DecidableEq, Repr

/-- Models `total_bytes = d.get('total_bytes') or d.get('total_bytes_estimate', 0)`:
Python's falsy `or` falls through to the estimate when `total_bytes` is
absent, `None`, or zero. -/
def hook_total (d : HookDict) : Nat :=
  match d.total_bytes with
  | some n => if n ≠ 0 then n else d.total_bytes_estimate.getD 0
  | none => d.total_bytes_estimate.getD 0

/-- Models `ProgressTracker._handle_downloading`: callback invoked only when the
total is positive, percentage computed as `downloaded / total * 100`. -/
def handle_downloading (d : HookDict) : Option ProgressInfo :=
  let filename := d.filename.getD "Unknown"
  let total : Nat := hook_total d
  let downloaded := d.downloaded_bytes.getD 0
  let speed := d.speed.getD 0
  if 0 < total then
    some { status := .downloading
           filename := some (pathName filename)
           percentage := some ((downloaded : ℚ) / (total : ℚ) * 100)
           downloaded := some (format_bytes downloaded)
           total := some (format_bytes total)
           speed := some (if speed ≠ 0 then format_bytes speed ++ "/s" else "Unknown")
           message := none }
  else
    none

/-- Models `ProgressTracker._handle_finished` (note: it sets no percentage). -/
def handle_finished (d : HookDict) : ProgressInfo :=
  { status := .finished
    filename := some (pathName (d.filename.getD "Unknown"))
    percentage := none, downloaded := none, total := none, speed := none
    message := none }

/-- Models `ProgressTracker._handle_error`. -/
def handle_error : ProgressInfo :=
  { status := .error
    filename := none, percentage := none, downloaded := none, total := none
    speed := none, message := some "Download failed" }

/-- Models `ProgressTracker.hook`: dispatch on the hook dictionary's status;
`none` when no callback invocation results. -/
def progressHook (d : HookDict) : Option ProgressInfo :=
  match d.status with
  | .downloading => handle_downloading d
  | .finished => some (handle_finished d)
  | .error => some handle_error
  | .pending => none

/-! ## The downloader (`AudioDownloader.download_audio`) -/

/-- The fields of the yt-dlp `extract_info` dictionary the downloader reads. -/
structure InfoDict where
  title : Option String
  duration : Option Nat
  uploader : Option String

/-- The result dictionary `download_audio` returns on success. -/
structure FetchResult where
  success : Bool
  url : String
  title : Option String
  duration : Option Nat
  uploader : Option String
  filename : String

/-- One run of the external yt-dlp engine: the `extract_info` outcome, the
`download` outcome, and the progress-hook events it fired. -/
structure EngineBehavior where
  info : Except String InfoDict
  download_outcome : Except String Unit
  hook_events : List HookDict

/-- The characters `re.sub(r'[<>:"/\\|?*]', '_', title)` replaces. -/
def isInvalidFileChar (c : Char) : Bool :=
  c = '<' || c = '>' || c = ':' || c = '"' || c = '/' || c = '\\' || c = '|' || c = '?' || c = '*'

/-- Models `AudioDownloader._get_output_filename` with no custom filename:
cleaned title plus `.mp3`. -/
def get_output_filename (info : InfoDict) : String :=
  ((info.title.getD "Unknown").toList.map
    (fun c => if isInvalidFileChar c then '_' else c)).asString ++ ".mp3"

/-- Models `AudioDownloader.download_audio`: validate, normalize, run the engine.
Returns the progress-callback invocations the hooks produced, and either
the success result (`'success': True` is set unconditionally) or the
`DownloadError` message raised. -/
def download_audio_run (url : String) (eng : EngineBehavior) :
    List ProgressInfo × Except String FetchResult :=
  if is_valid_youtube_url url = false then
    ([], .error ("Invalid YouTube URL: " ++ url))
  else
    match eng.info with
    | .error e => ([], .error ("YT-DLP download error: " ++ e))
    | .ok info =>
      let events := eng.hook_events.filterMap progressHook
      match eng.download_outcome with
      | .error e => (events, .error ("YT-DLP download error: " ++ e))
      | .ok _ =>
        (events,
         .ok { success := true
               url := normalize_url url
               title := info.title
               duration := info.duration
               uploader := info.uploader
               filename := get_output_filename info })

/-! ## Output-file resolution (`download_task`, `src/api/routes.py` 97-111) -/

/-- One file in the downloads directory. -/
structure FileEntry where
  name : String
  mtime : Nat
  size : Nat
deriving DecidableEq, Repr

/-- Does the name end in `.mp3` (the `glob("*.mp3")` pattern)? -/
def endsWithMp3 (s : String) : Bool :=
  decide (s.toList.reverse.take 4 = ['3', 'p', 'm', '.'])

/-- Models `config.paths.downloads_dir.glob("*.mp3")`. -/
def glob_mp3 (fs : List FileEntry) : List FileEntry :=
  fs.filter (fun e => endsWithMp3 e.name)

/-- Two-argument step of Python `max(..., key=mtime)`: keep the current
maximum unless the next entry is strictly more recent. -/
def mtimeMax (a b : FileEntry) : FileEntry :=
  if a.mtime < b.mtime then b else a

/-- Python `max(files, key=mtime)`: the first entry of maximal mtime. -/
def max_by_mtime : List FileEntry → Option FileEntry
  | [] => none
  | e :: es => some (es.foldl mtimeMax e)

/-- Models `file_path.exists()` for a name in the downloads directory. -/
def fileExists (fs : List FileEntry) (name : String) : Bool :=
  fs.any (fun e => e.name = name)

/-- Models `file_path.stat().st_size` guarded by `file_path.exists()`. -/
def statSize (fs : List FileEntry) (name : String) : Option Nat :=
  (fs.find? (fun e => e.name = name)).map FileEntry.size

/-- The artifact-resolution step of `download_task` (routes.py 97-111):
use the expected filename if it exists, otherwise fall back to the
most-recently-modified `*.mp3`, otherwise keep the expected name with no
size. Returns the recorded `(expected_filename, file_size)`. -/
def resolve_output (fs : List FileEntry) (expected : String) : String × Option Nat :=
  if fileExists fs expected then
    (expected, statSize fs expected)
  else
    match max_by_mtime (glob_mp3 fs) with
    | some e => (e.name, statSize fs e.name)
    | none => (expected, none)

/-! ## Task state and the background task body (`src/api/routes.py`)

`tasks` is the module-level in-memory task map; each value is the mutable
dictionary created by `start_download` and updated by the progress callback
and the body of `download_task`.  `none` in an `Option` field models a key
the dictionary does not (yet) contain. -/

/-- One entry of the `tasks` dictionary. -/
structure TaskState where
  task_id : String
  url : String
  status : Status
  percentage : ℚ
  downloaded : Option String := none
  total : Option String := none
  speed : Option String := none
  filename : Option String := none
  message : String
  error : Option String := none
deriving DecidableEq, Repr

/-- The entry `start_download` creates (routes.py 207-213). -/
def initTask (id url : String) : TaskState :=
  { task_id := id, url := url, status := .pending, percentage := 0
    message := "Task created" }

/-- The update `progress_callback_wrapper`'s callback applies
(routes.py 44-53), with the `info.get(..., default)` defaults. -/
def apply_progress (p : ProgressInfo) (t : TaskState) : TaskState :=
  { t with
    status := p.status
    percentage := p.percentage.getD 0
    downloaded := some (p.downloaded.getD "")
    total := some (p.total.getD "")
    speed := some (p.speed.getD "")
    filename := some (p.filename.getD "")
    message := p.message.getD "" }

/-- The record `db.add_download` inserts (routes.py 114-122,
database.py 56-85). -/
structure HistoryRecord where
  url : String
  title : Option String
  filename : String
  duration : Option String
  uploader : Option String
  file_size : Option Nat
  video_id : Option String
deriving DecidableEq, Repr

/-- The `computed` part of `metadata_extractor.extract_metadata` that
`download_task` reads. -/
structure MetaComputed where
  duration_formatted : Option String
  video_id : Option String

/-- One primitive effect of the `download_task` body, in execution order:
the initial status write (routes.py 66-67), a progress-callback update, the
history insert (114), the terminal success write (124-129), the
unsuccessful-result write (131-135), or the exception-handler write
(139-143). -/
inductive Event where
  | startWrite
  | progress (p : ProgressInfo)
  | insert (r : HistoryRecord)
  | finishWrite (filename : String)
  | unsuccessfulWrite (err : Option String)
  | failWrite (e : String)
deriving DecidableEq, Repr

/-- The status value an event writes into the task entry, if any. -/
def Event.statusWritten : Event → Option Status
  | .startWrite => some .downloading
  | .progress p => some p.status
  | .insert _ => none
  | .finishWrite _ => some .finished
  | .unsuccessfulWrite _ => some .error
  | .failWrite _ => some .error

/-- The full event trace of one `download_task` run, given the behavior of
the external collaborators: the yt-dlp engine, the metadata extractor, the
downloads directory, and the history database insert. -/
def download_task_events (url : String) (eng : EngineBehavior)
    (meta : Except String MetaComputed) (fs : List FileEntry)
    (db_outcome : Except String Nat) : List Event :=
  let run := download_audio_run url eng
  .startWrite :: run.1.map .progress ++
    match run.2 with
    | .ok result =>
      if result.success then
        let computed :=
          match meta with
          | .ok m => m
          | .error _ => { duration_formatted := none, video_id := none }
        let resolved := resolve_output fs result.filename
        match db_outcome with
        | .ok _ =>
          [.insert { url := url
                     title := result.title
                     filename := resolved.1
                     duration := computed.duration_formatted
                     uploader := result.uploader
                     file_size := resolved.2
                     video_id := computed.video_id },
           .finishWrite resolved.1]
        | .error e => [.failWrite e]
      else
        [.unsuccessfulWrite none]
    | .error e => [.failWrite e]

/-- The whole subsystem state: the in-memory task map (an association list
standing for the Python dict) and the history store contents. -/
structure SysState where
  tasks : List (String × TaskState)
  history : List HistoryRecord

/-- Models `tasks.get(task_id)` / `task_id in tasks`. -/
def lookupTask (s : SysState) (id : String) : Option TaskState :=
  (s.tasks.find? (fun kv => kv.1 = id)).map Prod.snd

/-- Models `tasks[task_id].update(...)`: update the entry in place (a no-op on a
missing key; the source would raise `KeyError` there, and no run below
reaches that case). -/
def updateTask (s : SysState) (id : String) (f : TaskState → TaskState) : SysState :=
  { s with tasks := s.tasks.map (fun kv => if kv.1 = id then (kv.1, f kv.2) else kv) }

/-- Apply one task-body event to the subsystem state. -/
def applyEvent (id : String) (s : SysState) : Event → SysState
  | .startWrite =>
    updateTask s id (fun t => { t with status := .downloading, message := "Starting download..." })
  | .progress p => updateTask s id (apply_progress p)
  | .insert r => { s with history := s.history ++ [r] }
  | .finishWrite fn =>
    updateTask s id (fun t =>
      { t with status := .finished, message := "Download completed successfully"
               filename := some fn })
  | .unsuccessfulWrite err =>
    updateTask s id (fun t =>
      { t with status := .error, message := err.getD "Download failed", error := err })
  | .failWrite e =>
    updateTask s id (fun t =>
      { t with status := .error, message := "Error: " ++ e, error := some e })

/-- Run the `download_task` body: fold its event trace over the state. -/
def run_download_task (id url : String) (eng : EngineBehavior)
    (meta : Except String MetaComputed) (fs : List FileEntry)
    (db_outcome : Except String Nat) (s : SysState) : SysState :=
  (download_task_events url eng meta fs db_outcome).foldl (applyEvent id) s

/-! ## Submission (`start_download`, routes.py 185-222) -/

/-- The response model returned on accepted submission. -/
structure DownloadResponse where
  task_id : String
  message : String
  url : String
deriving DecidableEq, Repr

/-- Models `start_download`: reject invalid URLs synchronously (before any state
change); otherwise create the `tasks` entry, schedule the background task,
and return the response.  `freshId` stands for the generated `uuid4`; the
middle component lists the background tasks scheduled by this call. -/
def start_download (s : SysState) (freshId url : String) :
    SysState × List (String × String) × Except String DownloadResponse :=
  if is_valid_youtube_url url = false then
    (s, [], .error "Invalid YouTube URL")
  else
    ({ s with tasks := (freshId, initTask freshId url) :: s.tasks },
     [(freshId, url)],
     .ok { task_id := freshId, message := "Download started", url := url })

/-- A state-mutating operation of the subsystem.  The remaining endpoints
(`get_progress`, `get_history`, `download_file`, `get_stats`, `get_video_info`)
only read the state. -/
inductive SysOp where
  | submit (freshId url : String)
  | runTask (id url : String) (eng : EngineBehavior)
      (meta : Except String MetaComputed) (fs : List FileEntry)
      (db_outcome : Except String Nat)

/-- Effect of one mutating operation on the subsystem state. -/
def sysStep (s : SysState) : SysOp → SysState
  | .submit fid url => (start_download s fid url).1
  | .runTask id url eng meta fs db => run_download_task id url eng meta fs db s

/-! ## Progress streaming (`get_progress`, routes.py 225-279) -/

/-- The pydantic `ProgressUpdate` payload (models.py 108-132). -/
structure ProgressUpdateModel where
  task_id : String
  status : Status
  percentage : ℚ
  downloaded : Option String
  total : Option String
  speed : Option String
  filename : Option String
  message : Option String
deriving DecidableEq, Repr

/-- Construct a `ProgressUpdate` from a task snapshot; pydantic's
`ge=0, le=100` bound on `percentage` rejects the construction (raising
`ValidationError`) when the stored percentage is out of range. -/
def mkProgressUpdate (id : String) (t : TaskState) : Option ProgressUpdateModel :=
  if 0 ≤ t.percentage ∧ t.percentage ≤ 100 then
    some { task_id := id, status := t.status, percentage := t.percentage
           downloaded := t.downloaded, total := t.total, speed := t.speed
           filename := t.filename, message := some t.message }
  else
    none

/-- One item of the SSE stream: a progress event, the task-not-found error
event, or the generator dying on a `ValidationError`. -/
inductive StreamItem where
  | progress (u : ProgressUpdateModel)
  | notFound
  | crash
deriving DecidableEq, Repr

/-- The `event_generator` loop of `get_progress`, fed the sequence of task
snapshots it observes at successive polls (`none`: id absent from `tasks`).
It emits when the status differs from the last emitted status or equals
`'downloading'`, and stops after emitting a terminal status. -/
def stream_events (id : String) : Option Status → List (Option TaskState) → List StreamItem
  | _, [] => []
  | _, none :: _ => [.notFound]
  | last, some t :: rest =>
    if some t.status ≠ last ∨ t.status = .downloading then
      match mkProgressUpdate id t with
      | none => [.crash]
      | some u =>
        if t.status = .finished ∨ t.status = .error then
          [.progress u]
        else
          .progress u :: stream_events id (some t.status) rest
    else
      stream_events id last rest

/-! ## Claim-level predicates and concrete fixtures -/

/-- The spec's ordering property for history insertion: every insert in a
task-body trace is preceded by an event that writes status `finished`. -/
def InsertAfterFinished (tr : List Event) : Prop :=
  ∀ i r, tr.get? i = some (.insert r) →
    ∃ j, j < i ∧ ∃ ev, tr.get? j = some ev ∧ ev.statusWritten = some .finished

/-- The spec's terminal-stability property over a task-body trace: after any
event writing a terminal status, every later status write writes that same
status. -/
def TerminalStable (tr : List Event) : Prop :=
  ∀ i j ei ej si sj, i < j →
    tr.get? i = some ei → ei.statusWritten = some si →
    (si = .finished ∨ si = .error) →
    tr.get? j = some ej → ej.statusWritten = some sj →
    sj = si

/-- Is this event one of the `download_task` body's own terminal writes
(routes.py 124, 131, 139)? -/
def Event.isBodyTerminal : Event → Bool
  | .finishWrite _ => true
  | .unsuccessfulWrite _ => true
  | .failWrite _ => true
  | _ => false

/-- Is this event a history insert? -/
def Event.isInsert : Event → Bool
  | .insert _ => true
  | _ => false

/-- A valid reference used by the concrete runs below. -/
def urlOk : String := "https://youtu.be/dQw4w9WgXcQ"

/-- An engine run that succeeds without firing any progress hook. -/
def engOk : EngineBehavior :=
  { info := .ok { title := some "Song", duration := some 100, uploader := some "Artist" }
    download_outcome := .ok ()
    hook_events := [] }

/-- A hook dictionary as yt-dlp fires it when a file finishes downloading. -/
def hookFin : HookDict :=
  { status := .finished, filename := some "Song.mp3"
    total_bytes := none, total_bytes_estimate := none
    downloaded_bytes := none, speed := none }

/-- An engine run that succeeds after firing the `finished` hook. -/
def engFin : EngineBehavior :=
  { info := .ok { title := some "Song", duration := some 100, uploader := some "Artist" }
    download_outcome := .ok ()
    hook_events := [hookFin] }

/-- The result dictionary `download_audio` returns for `engOk` on `urlOk`. -/
def resultOk : FetchResult :=
  { success := true
    url := "https://www.youtube.com/watch?v=dQw4w9WgXcQ"
    title := some "Song", duration := some 100, uploader := some "Artist"
    filename := "Song.mp3" }

/-- A `downloading` hook event whose estimated total (100 bytes) is smaller
than the bytes already downloaded (200). -/
def hookOverEst : HookDict :=
  { status := .downloading, filename := some "Song.mp3"
    total_bytes := none, total_bytes_estimate := some 100
    downloaded_bytes := some 200, speed := none }

/-- The callback dictionary `handle_downloading` produces for `hookOverEst`:
its percentage is 200. -/
def overInfo : ProgressInfo :=
  { status := .downloading, filename := some "Song.mp3", percentage := some 200
    downloaded := some "200.0 B", total := some "100.0 B", speed := some "Unknown"
    message := none }

/-- A `downloading` hook event with 100 of 200 bytes downloaded. -/
def hookHalf : HookDict :=
  { status := .downloading, filename := some "Song.mp3"
    total_bytes := some 200, total_bytes_estimate := none
    downloaded_bytes := some 100, speed := none }

/-- The callback dictionary `handle_downloading` produces for `hookHalf`. -/
def halfInfo : ProgressInfo :=
  { status := .downloading, filename := some "Song.mp3", percentage := some 50
    downloaded := some "100.0 B", total := some "200.0 B", speed := some "Unknown"
    message := none }

/-- The update the streamer emits on first polling a freshly created task. -/
def pendingUpd : ProgressUpdateModel :=
  { task_id := "t", status := .pending, percentage := 0
    downloaded := none, total := none, speed := none, filename := none
    message := some "Task created" }

/-- The update the streamer emits while the `hookHalf` progress is stored. -/
def halfUpd : ProgressUpdateModel :=
  { task_id := "t", status := .downloading, percentage := 50
    downloaded := some "100.0 B", total := some "200.0 B", speed := some "Unknown"
    filename := some "Song.mp3", message := some "" }

/-- An engine run whose `extract_info` raises. -/
def engFail : EngineBehavior :=
  { info := .error "Video unavailable", download_outcome := .ok (), hook_events := [] }

/-- The callback dictionary the `finished` handler produces for `hookFin`. -/
def finInfo : ProgressInfo := handle_finished hookFin

/-- The history record inserted by the concrete successful run of `engOk`
on `urlOk` with failed metadata enrichment and an empty downloads
directory. -/
def recOk : HistoryRecord :=
  { url := urlOk, title := some "Song", filename := "Song.mp3"
    duration := none, uploader := some "Artist", file_size := none, video_id := none }

/-! ## Helper lemmas -/

theorem mtimeMax_left (a b : FileEntry) : a.mtime ≤ (mtimeMax a b).mtime := by
  unfold mtimeMax
  split <;> omega

theorem mtimeMax_right (a b : FileEntry) : b.mtime ≤ (mtimeMax a b).mtime := by
  unfold mtimeMax
  split <;> omega

theorem mtimeMax_cases (a b : FileEntry) : mtimeMax a b = a ∨ mtimeMax a b = b := by
  unfold mtimeMax
  split
  · right
    rfl
  · left
    rfl

theorem foldl_mtimeMax_spec (es : List FileEntry) (a : FileEntry) :
    (es.foldl mtimeMax a = a ∨ es.foldl mtimeMax a ∈ es)
    ∧ a.mtime ≤ (es.foldl mtimeMax a).mtime
    ∧ ∀ x ∈ es, x.mtime ≤ (es.foldl mtimeMax a).mtime := by
  induction es generalizing a with
  | nil => simp
  | cons b bs ih =>
    simp only [List.foldl_cons]
    obtain ⟨h1, h2, h3⟩ := ih (mtimeMax a b)
    refine ⟨?_, ?_, ?_⟩
    · rcases h1 with h | h
      · rcases mtimeMax_cases a b with hc | hc
        · left
          rw [h, hc]
        · right
          rw [h, hc]
          exact List.mem_cons_self _ _
      · right
        exact List.mem_cons_of_mem _ h
    · exact le_trans (mtimeMax_left a b) h2
    · intro x hx
      rcases List.mem_cons.mp hx with hx | hx
      · subst hx
        exact le_trans (mtimeMax_right a x) h2
      · exact h3 x hx

theorem max_by_mtime_spec (l : List FileEntry) (e : FileEntry)
    (h : max_by_mtime l = some e) : e ∈ l ∧ ∀ x ∈ l, x.mtime ≤ e.mtime := by
  cases l with
  | nil => simp [max_by_mtime] at h
  | cons a es =>
    simp only [max_by_mtime, Option.some.injEq] at h
    obtain ⟨h1, h2, h3⟩ := foldl_mtimeMax_spec es a
    subst h
    refine ⟨?_, ?_⟩
    · rcases h1 with h | h
      · rw [h]
        exact List.mem_cons_self _ _
      · exact List.mem_cons_of_mem _ h
    · intro x hx
      rcases List.mem_cons.mp hx with hx | hx
      · subst hx
        exact h2
      · exact h3 x hx

theorem statSize_isSome_of_exists (fs : List FileEntry) (name : String)
    (h : fileExists fs name = true) : (statSize fs name).isSome = true := by
  simp only [fileExists, List.any_eq_true, decide_eq_true_eq] at h
  obtain ⟨e, he, hn⟩ := h
  have hfind : (fs.find? (fun e => decide (e.name = name))).isSome = true :=
    List.find?_isSome.mpr ⟨e, he, by simp [hn]⟩
  obtain ⟨v, hv⟩ := Option.isSome_iff_exists.mp hfind
  simp [statSize, hv]

theorem download_audio_run_ok_success (url : String) (eng : EngineBehavior)
    (r : FetchResult) (h : (download_audio_run url eng).2 = .ok r) :
    r.success = true := by
  unfold download_audio_run at h
  split at h
  · simp at h
  · split at h
    · simp at h
    · split at h
      · simp at h
      · simp only [Except.ok.injEq] at h
        rw [← h]

theorem applyEvent_history_of_not_insert (id : String) (s : SysState) (ev : Event)
    (h : ∀ r, ev ≠ .insert r) : (applyEvent id s ev).history = s.history := by
  cases ev
  case insert r => exact absurd rfl (h r)
  all_goals rfl

theorem foldl_history_of_no_insert (id : String) (evs : List Event) (s : SysState)
    (h : ∀ r, Event.insert r ∉ evs) :
    (evs.foldl (applyEvent id) s).history = s.history := by
  induction evs generalizing s with
  | nil => rfl
  | cons ev rest ih =>
    rw [List.foldl_cons, ih _ (fun r hr => h r (List.mem_cons_of_mem _ hr))]
    exact applyEvent_history_of_not_insert id s ev
      (fun r he => h r (he ▸ List.mem_cons_self _ _))

/-! ## Claims -/

/-- C7: after a successful fetch the task body resolves the output artifact
by (a) using the expected filename when it exists, (b) otherwise selecting
the most-recently-modified `*.mp3` in the downloads directory and replacing
the expected name with its name, and (c) when no candidate exists, leaving
the size field empty and keeping the expected name — the task does not
fail.  (Amended from the original claim: in case (c) the source leaves the
`filename` field holding the expected name, not empty.) -/
theorem resolve_output_spec (fs : List FileEntry) (expected : String) :
    (fileExists fs expected = true →
      resolve_output fs expected = (expected, statSize fs expected)
      ∧ (statSize fs expected).isSome = true)
    ∧ (fileExists fs expected = false →
      ∀ e, max_by_mtime (glob_mp3 fs) = some e →
        resolve_output fs expected = (e.name, statSize fs e.name)
        ∧ e ∈ glob_mp3 fs ∧ ∀ x ∈ glob_mp3 fs, x.mtime ≤ e.mtime)
    ∧ (fileExists fs expected = false → max_by_mtime (glob_mp3 fs) = none →
      resolve_output fs expected = (expected, none)) := by
  refine ⟨?_, ?_, ?_⟩
  · intro h
    refine ⟨?_, statSize_isSome_of_exists fs expected h⟩
    simp [resolve_output, h]
  · intro h e hmax
    obtain ⟨hmem, hle⟩ := max_by_mtime_spec _ _ hmax
    refine ⟨?_, hmem, hle⟩
    simp [resolve_output, h, hmax]
  · intro h hmax
    simp [resolve_output, h, hmax]

/-- C7 counterexample to the claim as stated: with no expected artifact and
no `*.mp3` candidate at all, the recorded name field is the (nonempty)
expected filename, not the empty string. -/
theorem resolve_output_cex :
    resolve_output [] "Song.mp3" = ("Song.mp3", none) ∧ ("Song.mp3" : String) ≠ "" := by
  constructor
  · rfl
  · decide

/-- C7 witness: the three branches of `resolve_output_spec` at concrete
directories. -/
theorem resolve_output_spec_witness :
    resolve_output [⟨"Song.mp3", 5, 42⟩] "Song.mp3" = ("Song.mp3", some 42)
    ∧ resolve_output [⟨"Other.mp3", 7, 10⟩, ⟨"New.mp3", 9, 11⟩] "Song.mp3" = ("New.mp3", some 11)
    ∧ resolve_output [] "Song.mp3" = ("Song.mp3", none) := by
  refine ⟨?_, ?_, ?_⟩
  · have h := (resolve_output_spec [⟨"Song.mp3", 5, 42⟩] "Song.mp3").1 (by decide)
    rw [h.1]
    rfl
  · have h := ((resolve_output_spec [⟨"Other.mp3", 7, 10⟩, ⟨"New.mp3", 9, 11⟩] "Song.mp3").2.1
      (by decide) ⟨"New.mp3", 9, 11⟩ (by decide))
    rw [h.1]
    rfl
  · exact ((resolve_output_spec [] "Song.mp3").2.2 (by decide) (by decide))

/-- C5: an invalid reference makes `start_download` return an error
synchronously, leaving the task map untouched and scheduling no background
task; an accepted reference creates the registry entry (status `pending`,
percentage `0`) before returning, so a lookup of the returned task id right
after submit never fails. -/
theorem start_download_validation (s : SysState) (freshId url : String) :
    (is_valid_youtube_url url = false →
      start_download s freshId url = (s, [], .error "Invalid YouTube URL"))
    ∧ (is_valid_youtube_url url = true →
      (start_download s freshId url).2.2
          = .ok { task_id := freshId, message := "Download started", url := url }
      ∧ lookupTask (start_download s freshId url).1 freshId = some (initTask freshId url)
      ∧ (initTask freshId url).status = .pending
      ∧ (initTask freshId url).percentage = 0) := by
  constructor
  · intro h
    simp [start_download, h]
  · intro h
    refine ⟨?_, ?_, rfl, rfl⟩
    · simp [start_download, h]
    · simp [start_download, h, lookupTask, List.find?]

/-- C5 witness: a rejected and an accepted submission on the empty state. -/
theorem start_download_validation_witness :
    start_download ⟨[], []⟩ "id1" "not-a-url" = (⟨[], []⟩, [], .error "Invalid YouTube URL")
    ∧ lookupTask (start_download ⟨[], []⟩ "id2" urlOk).1 "id2" = some (initTask "id2" urlOk) := by
  constructor
  · exact (start_download_validation ⟨[], []⟩ "id1" "not-a-url").1 (by decide)
  · exact ((start_download_validation ⟨[], []⟩ "id2" urlOk).2 (by decide)).2.1

/-- C8: `download_audio` either raises or returns a result whose success
flag is `True` (it is set unconditionally on the only return path), so the
`download_task` branch handling a returned unsuccessful result is
unreachable: no run of the task body ever performs that branch's write. -/
theorem download_audio_never_unsuccessful (url : String) (eng : EngineBehavior) :
    (∀ r, (download_audio_run url eng).2 = .ok r → r.success = true)
    ∧ ∀ meta fs db err, Event.unsuccessfulWrite err ∉ download_task_events url eng meta fs db := by
  have hok := download_audio_run_ok_success url eng
  refine ⟨hok, ?_⟩
  intro meta fs db err hmem
  simp only [download_task_events] at hmem
  rcases hres : (download_audio_run url eng).2 with e | r
  · rw [hres] at hmem
    simp at hmem
  · rw [hres] at hmem
    have hs := hok r hres
    rcases db with e | n <;> simp [hs] at hmem

/-- C8 witness: the success flag of the concrete successful engine run. -/
theorem download_audio_never_unsuccessful_witness :
    (download_audio_run urlOk engOk).2 = .ok resultOk ∧ resultOk.success = true :=
  ⟨rfl, (download_audio_never_unsuccessful urlOk engOk).1 resultOk rfl⟩

/-- C4: when the fetch fails (the downloader raises), the task body inserts
no history record and leaves the history store unchanged. -/
theorem failed_fetch_no_history (url : String) (eng : EngineBehavior)
    (meta : Except String MetaComputed) (fs : List FileEntry)
    (db : Except String Nat) (e : String)
    (hfail : (download_audio_run url eng).2 = .error e) :
    (∀ r, Event.insert r ∉ download_task_events url eng meta fs db)
    ∧ ∀ id s, (run_download_task id url eng meta fs db s).history = s.history := by
  have hnoins : ∀ r, Event.insert r ∉ download_task_events url eng meta fs db := by
    intro r hmem
    simp only [download_task_events] at hmem
    rw [hfail] at hmem
    simp at hmem
  refine ⟨hnoins, fun id s => ?_⟩
  unfold run_download_task
  exact foldl_history_of_no_insert id _ s hnoins

/-- C4 witness: a concrete failing fetch leaves an empty history empty. -/
theorem failed_fetch_no_history_witness :
    (run_download_task "t" urlOk engFail (.error "m") [] (.ok 1)
      ⟨[("t", initTask "t" urlOk)], []⟩).history = [] :=
  (failed_fetch_no_history urlOk engFail (.error "m") [] (.ok 1)
    "YT-DLP download error: Video unavailable" rfl).2 "t" ⟨[("t", initTask "t" urlOk)], []⟩

/-- C2 counterexample to the claim as stated: in the run where yt-dlp's
`finished` hook has already driven the task status to the terminal
`'finished'` value and the subsequent history insert raises, the task body's
exception handler overwrites the status with `'error'` — a terminal value is
left. -/
theorem terminal_never_left_cex :
    ¬ TerminalStable (download_task_events urlOk engFin (.error "m") [] (.error "db locked")) := by
  intro h
  have h12 := h 1 2 (.progress finInfo) (.failWrite "db locked") .finished .error
    (by omega) rfl rfl (Or.inl rfl) rfl rfl
  exact absurd h12 (by decide)

/-- C2 (amended): terminal statuses written by the task body itself are
final — the body's terminal write is always the last event of a task run,
so nothing in the run changes the status afterwards.  A terminal status
reported by the progress callback, however, is not protected: a later body
step that fails overwrites a callback-written `'finished'` with `'error'`
(see the counterexample). -/
theorem body_terminal_write_is_last (url : String) (eng : EngineBehavior)
    (meta : Except String MetaComputed) (fs : List FileEntry) (db : Except String Nat) :
    ∃ pre last, download_task_events url eng meta fs db = pre ++ [last]
      ∧ last.isBodyTerminal = true
      ∧ (last.statusWritten = some .finished ∨ last.statusWritten = some .error)
      ∧ ∀ ev ∈ pre, ev.isBodyTerminal = false := by
  simp only [download_task_events]
  rcases hres : (download_audio_run url eng).2 with e | r
  · refine ⟨.startWrite :: (download_audio_run url eng).1.map .progress, .failWrite e,
      by simp, rfl, .inr rfl, ?_⟩
    intro ev hev
    rcases List.mem_cons.mp hev with h | h
    · subst h
      rfl
    · obtain ⟨p, _, hp⟩ := List.mem_map.mp h
      rw [← hp]
      rfl
  · have hs := download_audio_run_ok_success url eng r hres
    dsimp only
    rw [if_pos hs]
    rcases db with dbe | dbn
    all_goals dsimp only
    · refine ⟨.startWrite :: (download_audio_run url eng).1.map .progress, .failWrite dbe,
        by simp, rfl, .inr rfl, ?_⟩
      intro ev hev
      rcases List.mem_cons.mp hev with h | h
      · subst h
        rfl
      · obtain ⟨p, _, hp⟩ := List.mem_map.mp h
        rw [← hp]
        rfl
    · refine ⟨.startWrite :: (download_audio_run url eng).1.map .progress
        ++ [.insert { url := url
                      title := r.title
                      filename := (resolve_output fs r.filename).1
                      duration := (match meta with
                        | .ok m => m
                        | .error _ => ⟨none, none⟩).duration_formatted
                      uploader := r.uploader
                      file_size := (resolve_output fs r.filename).2
                      video_id := (match meta with
                        | .ok m => m
                        | .error _ => ⟨none, none⟩).video_id }],
        .finishWrite (resolve_output fs r.filename).1, by simp, rfl, .inl rfl, ?_⟩
      intro ev hev
      rcases List.mem_append.mp hev with h | h
      · rcases List.mem_cons.mp h with h | h
        · subst h
          rfl
        · obtain ⟨p, _, hp⟩ := List.mem_map.mp h
          rw [← hp]
          rfl
      · rw [List.mem_singleton.mp h]
        rfl

/-- C1 counterexample to the claim as stated: in a concrete successful run
the history insert is the second event, and the only event before it writes
status `'downloading'` — the insert is *not* preceded by any write of the
terminal `'finished'` status (the body sets `'finished'` only after the
insert). -/
theorem history_insert_order_cex :
    ¬ InsertAfterFinished (download_task_events urlOk engOk (.error "m") [] (.ok 1)) := by
  intro h
  obtain ⟨j, hj, ev, hev, hst⟩ := h 1 recOk rfl
  have hj0 : j = 0 := by omega
  subst hj0
  have h0 : (download_task_events urlOk engOk (.error "m") [] (.ok 1)).get? 0
      = some Event.startWrite := rfl
  rw [h0, Option.some.injEq] at hev
  rw [← hev] at hst
  exact absurd hst (by decide)

/-- C1 (amended): for every successful task run (fetch returns a result and
the history insert succeeds), the body inserts exactly one history record,
and the insert happens immediately *before* the status is set to the
terminal `'finished'` state — the finished write is the last event, right
after the insert, never before it. -/
theorem history_insert_precedes_finish (url : String) (eng : EngineBehavior)
    (meta : Except String MetaComputed) (fs : List FileEntry)
    (db : Except String Nat) (r : FetchResult) (n : Nat)
    (hok : (download_audio_run url eng).2 = .ok r) (hdb : db = .ok n) :
    (∃ pre rec, download_task_events url eng meta fs db
        = pre ++ [.insert rec, .finishWrite (resolve_output fs r.filename).1]
      ∧ ∀ rec', Event.insert rec' ∉ pre)
    ∧ ((download_task_events url eng meta fs db).filter Event.isInsert).length = 1 := by
  have hs := download_audio_run_ok_success url eng r hok
  have htr : download_task_events url eng meta fs db
      = (.startWrite :: (download_audio_run url eng).1.map .progress)
        ++ [.insert { url := url
                      title := r.title
                      filename := (resolve_output fs r.filename).1
                      duration := (match meta with
                        | .ok m => m
                        | .error _ => ⟨none, none⟩).duration_formatted
                      uploader := r.uploader
                      file_size := (resolve_output fs r.filename).2
                      video_id := (match meta with
                        | .ok m => m
                        | .error _ => ⟨none, none⟩).video_id },
            .finishWrite (resolve_output fs r.filename).1] := by
    simp only [download_task_events]
    rw [hok, hdb]
    dsimp only
    rw [if_pos hs]
  have hpre : ∀ rec', Event.insert rec'
      ∉ Event.startWrite :: (download_audio_run url eng).1.map .progress := by
    intro rec' hmem
    rcases List.mem_cons.mp hmem with h | h
    · exact Event.noConfusion h
    · obtain ⟨p, _, hp⟩ := List.mem_map.mp h
      exact Event.noConfusion hp
  refine ⟨⟨_, _, htr, hpre⟩, ?_⟩
  rw [htr, List.filter_append]
  have hfil : (Event.startWrite :: (download_audio_run url eng).1.map .progress).filter
      Event.isInsert = [] := by
    rw [List.filter_eq_nil_iff]
    intro a ha
    rcases List.mem_cons.mp ha with h | h
    · rw [h]
      decide
    · obtain ⟨p, _, hp⟩ := List.mem_map.mp h
      rw [← hp]
      simp [Event.isInsert]
  rw [hfil]
  rfl

/-- C1 witness: the amended theorem at the concrete successful run —
exactly one insert in its trace. -/
theorem history_insert_precedes_finish_witness :
    ((download_task_events urlOk engOk (.error "m") [] (.ok 1)).filter
      Event.isInsert).length = 1 :=
  (history_insert_precedes_finish urlOk engOk (.error "m") [] (.ok 1) resultOk 1 rfl rfl).2

/-- C3 counterexample to the claim as stated: when the estimated total
(100 bytes) is smaller than the bytes downloaded (200), the percentage the
progress handler computes and stores is 200, outside `[0, 100]`; the
streamer then cannot emit it — constructing the update fails validation
and the stream dies. -/
theorem progress_percentage_cex :
    handle_downloading hookOverEst = some overInfo
    ∧ ¬ ((0 : ℚ) ≤ 200 ∧ (200 : ℚ) ≤ 100)
    ∧ stream_events "t" none [some (apply_progress overInfo (initTask "t" urlOk))]
        = [.crash] := by
  refine ⟨?_, by decide, by decide⟩
  rw [handle_downloading]
  norm_num [hookOverEst, hook_total, overInfo, pathName, format_bytes,
    format_bytes_loop, fmt1, round_eq]
  decide

/-- C3 (amended): the percentage computed by the downloading handler is
always nonnegative, and lies within `[0, 100]` whenever the reported byte
count does not exceed the (possibly estimated) total; and every update the
streamer actually emits to an observer carries a percentage within
`[0, 100]` (the pydantic bound rejects any other update instead of
emitting it). -/
theorem progress_percentage_bounds :
    (∀ d p, handle_downloading d = some p →
      ∃ q, p.percentage = some q ∧ 0 ≤ q
        ∧ ((d.downloaded_bytes.getD 0 : ℚ) ≤ (hook_total d : ℚ) → q ≤ 100))
    ∧ ∀ id last snaps u, StreamItem.progress u ∈ stream_events id last snaps →
        0 ≤ u.percentage ∧ u.percentage ≤ 100 := by
  constructor
  · intro d p h
    unfold handle_downloading at h
    dsimp only at h
    split at h
    · next hpos =>
      simp only [Option.some.injEq] at h
      refine ⟨(d.downloaded_bytes.getD 0 : ℚ) / (hook_total d : ℚ) * 100, ?_, ?_, ?_⟩
      · rw [← h]
      · positivity
      · intro hle
        have htot : (0 : ℚ) < (hook_total d : ℚ) := by
          exact_mod_cast hpos
        have hdiv : (d.downloaded_bytes.getD 0 : ℚ) / (hook_total d : ℚ) ≤ 1 :=
          (div_le_one htot).mpr hle
        calc (d.downloaded_bytes.getD 0 : ℚ) / (hook_total d : ℚ) * 100
            ≤ 1 * 100 := by
              exact mul_le_mul_of_nonneg_right hdiv (by norm_num)
          _ = 100 := by norm_num
    · exact absurd h (by simp)
  · intro id
    have hmk : ∀ t u, mkProgressUpdate id t = some u →
        0 ≤ u.percentage ∧ u.percentage ≤ 100 := by
      intro t u h
      unfold mkProgressUpdate at h
      split at h
      · next hc =>
        simp only [Option.some.injEq] at h
        rw [← h]
        exact hc
      · exact absurd h (by simp)
    intro last snaps
    induction snaps generalizing last with
    | nil =>
      intro u h
      simp [stream_events] at h
    | cons s rest ih =>
      intro u h
      cases s with
      | none =>
        simp [stream_events] at h
      | some t =>
        rw [stream_events] at h
        split at h
        · split at h
          · simp at h
          · next u' hmku =>
            split at h
            · obtain rfl : u = u' := by injection List.mem_singleton.mp h
              exact hmk t u hmku
            · rcases List.mem_cons.mp h with h | h
              · obtain rfl : u = u' := by injection h
                exact hmk t u hmku
              · exact ih _ u h
        · exact ih _ u h

/-- C3 witness: the bound theorem applied at a hook event with 100 of 200
bytes downloaded, and at the streamer's first emission on a fresh task. -/
theorem progress_percentage_bounds_witness :
    halfInfo.percentage = some 50
    ∧ (0 : ℚ) ≤ 50 ∧ (50 : ℚ) ≤ 100
    ∧ 0 ≤ pendingUpd.percentage ∧ pendingUpd.percentage ≤ 100 := by
  have hhalf : handle_downloading hookHalf = some halfInfo := by
    rw [handle_downloading]
    norm_num [hookHalf, hook_total, halfInfo, pathName, format_bytes,
      format_bytes_loop, fmt1, round_eq]
    decide
  obtain ⟨q, hq, h0, h100⟩ :=
    progress_percentage_bounds.1 hookHalf halfInfo hhalf
  have hq50 : q = 50 := by
    have h : (some (50 : ℚ) : Option ℚ) = some q := by
      rw [← hq]
      decide
    exact ((Option.some.injEq _ _).mp h).symm
  have hstream := progress_percentage_bounds.2 "t" none [some (initTask "t" urlOk)]
    pendingUpd (by decide)
  exact ⟨by decide, hq50 ▸ h0, hq50 ▸ h100 (by decide), hstream.1, hstream.2⟩

/-- C6: at each poll of a tracked task the streamer emits a notification
exactly when the snapshot's status differs from the status of the last
emitted notification or the snapshot is actively `'downloading'`; repeated
polls of an unchanged `'pending'` (or terminal) snapshot emit nothing
further, while an unchanged `'downloading'` snapshot is re-emitted at every
poll. -/
theorem stream_emission_policy :
    (∀ id last (t : TaskState) u, mkProgressUpdate id t = some u →
      (stream_events id last [some t] ≠ [] ↔ (some t.status ≠ last ∨ t.status = .downloading)))
    ∧ (∀ id (t : TaskState) n, t.status ≠ .downloading →
        stream_events id (some t.status) (List.replicate n (some t)) = [])
    ∧ (∀ id last (t : TaskState) u n, mkProgressUpdate id t = some u →
        t.status = .downloading →
        stream_events id last (List.replicate n (some t))
          = List.replicate n (.progress u)) := by
  refine ⟨?_, ?_, ?_⟩
  · intro id last t u hmk
    by_cases hc : (some t.status ≠ last ∨ t.status = .downloading)
    · rw [stream_events, if_pos hc, hmk]
      constructor
      · intro _
        exact hc
      · intro _
        dsimp only
        split <;> simp
    · rw [stream_events, if_neg hc]
      simp only [stream_events]
      simp [hc]
  · intro id t n hnd
    induction n with
    | zero => rfl
    | succ n ih =>
      rw [List.replicate_succ, stream_events, if_neg ?_]
      · exact ih
      · intro hcond
        rcases hcond with h | h
        · exact h rfl
        · exact hnd h
  · intro id last t u n hmk hdl
    induction n generalizing last with
    | zero => rfl
    | succ n ih =>
      rw [List.replicate_succ, stream_events, if_pos (Or.inr hdl), hmk]
      dsimp only
      rw [if_neg ?_, List.replicate_succ]
      · rw [ih (some t.status)]
      · rw [hdl]
        rintro (h | h) <;> exact Status.noConfusion h

/-- C6 witness: a fresh `pending` task yields one notification on the first
poll and none on later unchanged polls; an unchanged `downloading` snapshot
yields one per poll. -/
theorem stream_emission_policy_witness :
    stream_events "t" none [some (initTask "t" urlOk)] ≠ []
    ∧ stream_events "t" (some .pending) (List.replicate 3 (some (initTask "t" urlOk))) = []
    ∧ stream_events "t" none (List.replicate 2 (some (apply_progress halfInfo (initTask "t" urlOk))))
        = List.replicate 2 (.progress halfUpd) := by
  refine ⟨?_, ?_, ?_⟩
  · exact (stream_emission_policy.1 "t" none (initTask "t" urlOk) pendingUpd (by decide)).mpr
      (by decide)
  · exact stream_emission_policy.2.1 "t" (initTask "t" urlOk) 3 (by decide)
  · exact stream_emission_policy.2.2 "t" none (apply_progress halfInfo (initTask "t" urlOk))
      _ 2 (by decide) (by decide)

theorem find?_key_map (l : List (String × TaskState)) (id id' : String)
    (f : TaskState → TaskState) :
    ((l.map (fun kv => if kv.1 = id then (kv.1, f kv.2) else kv)).find?
      (fun kv => kv.1 = id')).isSome
      = (l.find? (fun kv => kv.1 = id')).isSome := by
  induction l with
  | nil => rfl
  | cons kv rest ih =>
    rw [List.map_cons]
    by_cases hfind : kv.1 = id'
    · have h1 : ((if kv.1 = id then (kv.1, f kv.2) else kv).1 = id') := by
        split <;> simpa using hfind
      rw [List.find?, List.find?, decide_eq_true h1, decide_eq_true hfind]
      rfl
    · have h1 : ¬((if kv.1 = id then (kv.1, f kv.2) else kv).1 = id') := by
        split <;> simpa using hfind
      rw [List.find?, List.find?, decide_eq_false h1, decide_eq_false hfind]
      exact ih

theorem lookup_updateTask_isSome (s : SysState) (id : String) (f : TaskState → TaskState)
    (id' : String) :
    (lookupTask (updateTask s id f) id').isSome = (lookupTask s id').isSome := by
  have hmap : ∀ (x : Option (String × TaskState)), (x.map Prod.snd).isSome = x.isSome := by
    intro x
    cases x <;> rfl
  simp only [lookupTask, updateTask]
  rw [hmap, hmap, find?_key_map]

theorem applyEvent_hasTask (id id' : String) (s : SysState) (ev : Event) :
    (lookupTask (applyEvent id s ev) id').isSome = (lookupTask s id').isSome := by
  cases ev
  case insert r => rfl
  all_goals exact lookup_updateTask_isSome s id _ id'

theorem foldl_applyEvent_hasTask (id : String) (evs : List Event) (s : SysState)
    (id' : String) :
    (lookupTask (evs.foldl (applyEvent id) s) id').isSome = (lookupTask s id').isSome := by
  induction evs generalizing s with
  | nil => rfl
  | cons ev rest ih =>
    rw [List.foldl_cons, ih, applyEvent_hasTask]

theorem sysStep_preserves_task (s : SysState) (op : SysOp) (id' : String)
    (h : (lookupTask s id').isSome = true) :
    (lookupTask (sysStep s op) id').isSome = true := by
  cases op with
  | submit fid url =>
    simp only [sysStep, start_download]
    split
    · exact h
    · by_cases hid : fid = id'
      · simp [lookupTask, List.find?_cons, hid]
      · simp only [lookupTask, List.find?_cons]
        simp only [lookupTask] at h
        simp [hid, h]
  | runTask id url eng meta fs db =>
    simp only [sysStep, run_download_task]
    rw [foldl_applyEvent_hasTask]
    exact h

/-- C9: no operation of the subsystem ever removes a task-map entry (there
is no deletion site), so a task created by an accepted submit remains in
the map across every later sequence of operations, and the streamer's
"Task not found" branch can never fire for its id. -/
theorem tasks_never_evicted :
    (∀ s op id', (lookupTask s id').isSome = true →
      (lookupTask (sysStep s op) id').isSome = true)
    ∧ ∀ s freshId url (ops : List SysOp), is_valid_youtube_url url = true →
        (lookupTask (ops.foldl sysStep (start_download s freshId url).1) freshId).isSome
          = true := by
  refine ⟨sysStep_preserves_task, ?_⟩
  intro s freshId url ops hv
  have hinit : (lookupTask (start_download s freshId url).1 freshId).isSome = true := by
    simp [start_download, hv, lookupTask, List.find?_cons]
  have hfold : ∀ (l : List SysOp) (st : SysState), (lookupTask st freshId).isSome = true →
      (lookupTask (l.foldl sysStep st) freshId).isSome = true := by
    intro l
    induction l with
    | nil =>
      intro st h
      exact h
    | cons op rest ih =>
      intro st h
      rw [List.foldl_cons]
      exact ih _ (sysStep_preserves_task st op _ h)
  exact hfold ops _ hinit

/-- C9 witness: a concrete accepted submit followed by a task run and a
second submit still finds the first task. -/
theorem tasks_never_evicted_witness :
    (lookupTask
      ([SysOp.runTask "t" urlOk engFail (.error "m") [] (.ok 1),
        SysOp.submit "u2" urlOk].foldl sysStep
        (start_download ⟨[], []⟩ "t" urlOk).1) "t").isSome = true :=
  tasks_never_evicted.2 ⟨[], []⟩ "t" urlOk
    [SysOp.runTask "t" urlOk engFail (.error "m") [] (.ok 1), SysOp.submit "u2" urlOk]
    (by decide)

theorem dropLit_append (lit rest : List Char) : dropLit lit (lit ++ rest) = some rest := by
  induction lit with
  | nil => rfl
  | cons c cs ih => simp [dropLit, ih]

theorem dropScheme_https (rest : List Char) :
    dropScheme ("https://".toList ++ rest) = rest := by
  unfold dropScheme
  rw [dropLit_append]

theorem dropOpt_append (lit rest : List Char) : dropOpt lit (lit ++ rest) = rest := by
  unfold dropOpt
  rw [dropLit_append]

theorem takeIdChars_sound : ∀ (n : Nat) (cs g r : List Char),
    takeIdChars n cs = some (g, r) →
    g.length = n ∧ (∀ c ∈ g, isIdChar c = true) ∧ cs = g ++ r := by
  intro n
  induction n with
  | zero =>
    intro cs g r h
    simp only [takeIdChars, Option.some.injEq] at h
    obtain ⟨rfl, rfl⟩ := Prod.mk.injEq .. ▸ h
    · simp
  | succ n ih =>
    intro cs g r h
    cases cs with
    | nil => simp [takeIdChars] at h
    | cons c cs' =>
      rw [takeIdChars] at h
      split at h
      · next hid =>
        cases hrec : takeIdChars n cs' with
        | none =>
          rw [hrec] at h
          simp at h
        | some p =>
          obtain ⟨g', r'⟩ := p
          rw [hrec] at h
          simp only [Option.map_some', Option.some.injEq] at h
          obtain ⟨hg, hr⟩ := Prod.mk.injEq .. ▸ h
          obtain ⟨hlen, hall, hsplit⟩ := ih cs' g' r' hrec
          subst hg
          subst hr
          refine ⟨by simp [hlen], ?_, by simp [hsplit]⟩
          intro x hx
          rcases List.mem_cons.mp hx with hx | hx
          · rw [hx]
            exact hid
          · exact hall x hx
      · exact absurd h (by simp)

theorem takeIdChars_complete : ∀ (g r : List Char), (∀ c ∈ g, isIdChar c = true) →
    takeIdChars g.length (g ++ r) = some (g, r) := by
  intro g
  induction g with
  | nil =>
    intro r _
    rfl
  | cons c g' ih =>
    intro r hall
    rw [List.length_cons, List.cons_append, takeIdChars,
      if_pos (hall c (List.mem_cons_self _ _)),
      ih r (fun x hx => hall x (List.mem_cons_of_mem _ hx))]
    rfl

theorem matchPattern_sound (label host : String) (cs g : List Char)
    (h : matchPattern label host cs = some g) :
    g.length = 11 ∧ ∀ c ∈ g, isIdChar c = true := by
  unfold matchPattern at h
  split at h
  · simp at h
  · next r hr =>
    cases htk : takeIdChars 11 r with
    | none =>
      rw [htk] at h
      simp at h
    | some p =>
      rw [htk] at h
      simp only [Option.map_some', Option.some.injEq] at h
      obtain ⟨hlen, hall, _⟩ := takeIdChars_sound 11 r p.1 p.2 (by rw [htk])
      rw [← h]
      exact ⟨hlen, hall⟩

theorem matchPatterns_sound (cs g : List Char) (h : matchPatterns cs = some g) :
    g.length = 11 ∧ ∀ c ∈ g, isIdChar c = true := by
  unfold matchPatterns at h
  cases h1 : matchPattern "www." "youtube.com/watch?v=" cs with
  | some g1 =>
    rw [h1] at h
    cases h
    exact matchPattern_sound _ _ _ _ h1
  | none =>
    rw [h1] at h
    cases h2 : matchPattern "www." "youtu.be/" cs with
    | some g2 =>
      rw [h2] at h
      cases h
      exact matchPattern_sound _ _ _ _ h2
    | none =>
      rw [h2] at h
      cases h3 : matchPattern "www." "youtube.com/embed/" cs with
      | some g3 =>
        rw [h3] at h
        cases h
        exact matchPattern_sound _ _ _ _ h3
      | none =>
        rw [h3] at h
        exact matchPattern_sound _ _ _ _ h

theorem not_ws_of_idChar (c : Char) (h : isIdChar c = true) : c.isWhitespace = false := by
  by_contra h'
  rw [Bool.not_eq_false] at h'
  simp only [Char.isWhitespace, Bool.or_eq_true, decide_eq_true_eq] at h'
  obtain ((h' | h') | h') | h' := h' <;> subst h' <;> exact absurd h (by decide)

theorem dropWhile_all_false (p : Char → Bool) (l : List Char)
    (h : ∀ c ∈ l, p c = false) : l.dropWhile p = l := by
  cases l with
  | nil => rfl
  | cons c cs =>
    rw [List.dropWhile_cons, h c (List.mem_cons_self _ _)]
    simp

theorem pyStrip_no_ws (l : List Char) (h : ∀ c ∈ l, c.isWhitespace = false) :
    pyStrip l = l := by
  unfold pyStrip
  rw [dropWhile_all_false _ l h,
    dropWhile_all_false _ l.reverse (fun c hc => h c (List.mem_reverse.mp hc))]
  exact List.reverse_reverse l

theorem canon_decomp (g : List Char) :
    "https://www.youtube.com/watch?v=".toList ++ g
      = "https://".toList ++ ("www.".toList ++ ("youtube.com/watch?v=".toList ++ g)) := by
  have h : "https://www.youtube.com/watch?v=".toList
      = ("https://".toList ++ "www.".toList) ++ "youtube.com/watch?v=".toList := by decide
  rw [h, List.append_assoc, List.append_assoc]

theorem matchPatterns_canon (g : List Char) (hlen : g.length = 11)
    (hall : ∀ c ∈ g, isIdChar c = true) :
    matchPatterns ("https://www.youtube.com/watch?v=".toList ++ g) = some g := by
  have hpat : matchPattern "www." "youtube.com/watch?v="
      ("https://www.youtube.com/watch?v=".toList ++ g) = some g := by
    unfold matchPattern
    rw [canon_decomp, dropScheme_https, dropOpt_append]
    have htk := takeIdChars_complete g [] hall
    rw [List.append_nil, hlen] at htk
    rw [dropLit_append]
    dsimp only
    rw [htk]
    rfl
  unfold matchPatterns
  rw [hpat]

/-- C10: every accepted URL yields an 11-character video id, normalization
rebuilds exactly the canonical watch URL from that id, the canonical form is
itself accepted, and normalizing it again returns it unchanged —
normalization is idempotent on valid references. -/
theorem url_normalization_canonical (url : String)
    (hv : is_valid_youtube_url url = true) :
    ∃ vid, extract_video_id url = some vid
      ∧ vid.length = 11
      ∧ normalize_url url = "https://www.youtube.com/watch?v=" ++ vid
      ∧ is_valid_youtube_url ("https://www.youtube.com/watch?v=" ++ vid) = true
      ∧ normalize_url ("https://www.youtube.com/watch?v=" ++ vid)
          = "https://www.youtube.com/watch?v=" ++ vid := by
  unfold is_valid_youtube_url at hv
  cases hm : matchPatterns (pyStrip url.toList) with
  | none =>
    rw [hm] at hv
    simp at hv
  | some g =>
    obtain ⟨hlen, hall⟩ := matchPatterns_sound _ _ hm
    have hnws : ∀ c ∈ ("https://www.youtube.com/watch?v=".toList ++ g),
        c.isWhitespace = false := by
      intro c hc
      rcases List.mem_append.mp hc with hc | hc
      · have hpre : ∀ c ∈ "https://www.youtube.com/watch?v=".toList,
            c.isWhitespace = false := by decide
        exact hpre c hc
      · exact not_ws_of_idChar c (hall c hc)
    have hcanonList : ("https://www.youtube.com/watch?v=" ++ g.asString).toList
        = "https://www.youtube.com/watch?v=".toList ++ g := rfl
    have hmc : matchPatterns
        (pyStrip ("https://www.youtube.com/watch?v=" ++ g.asString).toList) = some g := by
      rw [hcanonList, pyStrip_no_ws _ hnws]
      exact matchPatterns_canon g hlen hall
    refine ⟨g.asString, ?_, ?_, ?_, ?_, ?_⟩
    · unfold extract_video_id
      rw [hm]
      rfl
    · rw [show (List.asString g).length = g.length from rfl, hlen]
    · unfold normalize_url extract_video_id
      rw [hm]
      rfl
    · unfold is_valid_youtube_url
      rw [hmc]
      rfl
    · unfold normalize_url extract_video_id
      rw [hmc]
      rfl

/-- C10 witness: the theorem applied to a concrete short-form URL. -/
theorem url_normalization_canonical_witness :
    is_valid_youtube_url urlOk = true
    ∧ extract_video_id urlOk = some "dQw4w9WgXcQ"
    ∧ normalize_url urlOk = "https://www.youtube.com/watch?v=" ++ "dQw4w9WgXcQ"
    ∧ is_valid_youtube_url ("https://www.youtube.com/watch?v=" ++ "dQw4w9WgXcQ") = true := by
  obtain ⟨vid, h1, h2, h3, h4, h5⟩ := url_normalization_canonical urlOk (by decide)
  have hvid : vid = "dQw4w9WgXcQ" := by
    have hx : extract_video_id urlOk = some "dQw4w9WgXcQ" := by decide
    rw [hx] at h1
    exact ((Option.some.injEq _ _).mp h1).symm
  subst hvid
  exact ⟨by decide, h1, h3, h4⟩

end YtDlp
